import Mathlib

/-!
Verification development for a small compiler back end (IR builder,
five-pass TAC optimizer, register/slot allocator, native x86-64 text
emitter and portable LLVM-style text emitter).

The definitions below are shallow embeddings of the Python sources
(`ir.py`, `optimizer.py`, `regalloc.py`, `codegen.py`, `llvm_codegen.py`).
TAC instructions are the five-field records of `ir.py`; Python `None` is
`Option.none`; Python exceptions surface as `Except.error`; Python dicts
are insertion-ordered association lists.
-/

deriving instance DecidableEq for Except

namespace Compiler

/-! ### Python string primitives used by the sources -/

/-- Models Python `str.isdigit` (ASCII): nonempty and all characters are digits. -/
def pyIsDigit (s : String) : Bool :=
  !s.data.isEmpty && s.data.all Char.isDigit

/-- Models Python `str.isidentifier` (ASCII subset): first char alphabetic or
underscore, rest alphanumeric or underscore. -/
def pyIsIdentifier (s : String) : Bool :=
  match s.data with
  | [] => false
  | c :: t => (c.isAlpha || c == '_') && t.all (fun d => d.isAlphanum || d == '_')

/-- Python truthiness of an optional string: `None` and the empty string are falsy. -/
def pyTruthy (o : Option String) : Bool :=
  match o with
  | none => false
  | some s => s ≠ ""

/-- How Python's f-strings format an optional string: `None` prints as "None". -/
def pyFmt (o : Option String) : String :=
  match o with
  | none => "None"
  | some s => s

/-- List-level check that `p` is a leading segment of `s`. -/
def listStarts : List Char → List Char → Bool
  | [], _ => true
  | _ :: _, [] => false
  | a :: as, b :: bs => a == b && listStarts as bs

/-- Models Python `s.startswith(p)`. -/
def strStarts (p s : String) : Bool := listStarts p.data s.data

/-- Drop the first character of a string (Python `s[1:]` for the 1-char cut used
by constant folding). -/
def strDrop1 (s : String) : String := String.mk (s.data.drop 1)

/-- Split a character list at the first occurrence of `sep`; `none` second
component when `sep` does not occur. -/
def splitOnceAux (sep : Char) : List Char → List Char × Option (List Char)
  | [] => ([], none)
  | c :: t =>
    if c == sep then ([], some t)
    else
      let r := splitOnceAux sep t
      (c :: r.1, r.2)

/-- Models Python `s.split(sep, 1)`: the part before the first `sep` and,
when `sep` occurs, the remainder after it. -/
def pySplitOnce (sep : Char) (s : String) : String × Option String :=
  let r := splitOnceAux sep s.data
  (String.mk r.1, r.2.map String.mk)

/-- Models Python `s.split(sep)` for a one-character separator (no collapsing:
`"a,".split(",") = ["a", ""]`). -/
def pySplitAll (sep : Char) (s : String) : List String :=
  (s.data.foldr
    (fun c acc =>
      match acc with
      | [] => [[c]]
      | h :: t => if c == sep then [] :: h :: t else (c :: h) :: t)
    [[]]).map String.mk

/-- An apostrophe character, used by Python `repr` of strings. -/
def pyQuote : String := String.singleton (Char.ofNat 39)

/-- Python `repr` of an optional string: `None`, or the string in single quotes
(exact for strings without quotes or backslashes, the only ones arising here). -/
def pyRepr (o : Option String) : String :=
  match o with
  | none => "None"
  | some s => pyQuote ++ s ++ pyQuote

/-- Parse a digit string as a natural number (callers guard with `pyIsDigit`). -/
def pyToNat (s : String) : Nat :=
  s.data.foldl (fun n c => n * 10 + (c.toNat - 48)) 0

/-! ### The TAC instruction record (`ir.py`: namedtuple `Instruction`) -/

/-- The five-field TAC record `Instruction(op, dest, arg1, arg2, label)` of
`ir.py`.  `op` is always a string in every construction in the sources; the
other four fields may be Python `None`. -/
structure Instruction where
  op : String
  dest : Option String
  arg1 : Option String
  arg2 : Option String
  label : Option String
deriving DecidableEq, Repr

/-- Python `repr` of an `Instruction` namedtuple, as interpolated by the native
emitter's `; unhandled {instr}` placeholder. -/
def reprInstr (i : Instruction) : String :=
  "Instruction(op=" ++ pyQuote ++ i.op ++ pyQuote ++
  ", dest=" ++ pyRepr i.dest ++
  ", arg1=" ++ pyRepr i.arg1 ++
  ", arg2=" ++ pyRepr i.arg2 ++
  ", label=" ++ pyRepr i.label ++ ")"

/-! ### Insertion-ordered dictionaries (Python `dict`) -/

/-- Lookup in an insertion-ordered association list (Python `d[k]` / `k in d`). -/
def dictGet {α β : Type} [DecidableEq α] : List (α × β) → α → Option β
  | [], _ => none
  | (k, v) :: t, a => if a = k then some v else dictGet t a

/-- Update in an insertion-ordered association list (Python `d[k] = v`):
overwrite in place if present, append otherwise. -/
def dictSet {α β : Type} [DecidableEq α] : List (α × β) → α → β → List (α × β)
  | [], a, b => [(a, b)]
  | (k, v) :: t, a, b => if a = k then (a, b) :: t else (k, v) :: dictSet t a b

/-- Set insert for Python `set.add` (membership is all that is ever queried). -/
def insertStr (s : String) (u : List String) : List String :=
  if s ∈ u then u else s :: u

/-- Membership of an optional string in a string set: Python `x in used` where
`x` may be `None` (never a member of a set of nonempty strings). -/
def optMem (o : Option String) (u : List String) : Bool :=
  match o with
  | none => false
  | some s => s ∈ u

/-! ### Constant folding (`optimizer.py`: `constant_folding`) -/

/-- Models `repr(a / b)` for Python's float division of two nonnegative
integers with `b ≠ 0`.  The model is exact when the reduced denominator is a
power of two (then the quotient's finite decimal expansion is the repr, e.g.
`repr(4/2) = "2.0"`, `repr(5/2) = "2.5"`); for other quotients Python prints a
shortest round-trip approximation which has no exact embedding, and this
function returns a marker.  No theorem in this file evaluates a folded
division: the builder's packed operand format prevents folding, and every
concrete folding example below uses `+`. -/
def pyFloatDivRepr (a b : Nat) : String :=
  let g := Nat.gcd a b
  let num := a / g
  let den := b / g
  match (List.range 64).find? (fun k => den == 2 ^ k) with
  | some k =>
    if k == 0 then toString num ++ ".0"
    else
      let scaled := num * 5 ^ k
      let ip := scaled / 10 ^ k
      let fp := scaled % 10 ^ k
      let rec padDigits : Nat → Nat → List Char
        | _, 0 => []
        | n, j + 1 => padDigits (n / 10) j ++ [Char.ofNat (48 + n % 10)]
      let digits := padDigits fp k
      let kept := (digits.reverse.dropWhile (fun c => c == '0')).reverse
      let frac := if kept.isEmpty then "0" else String.mk kept
      toString ip ++ "." ++ frac
  | none => toString a ++ "/" ++ toString b

/-- Models Python `eval(f"{left}{sym}{right}")` followed by `str(...)`, for
digit-string operands: integer arithmetic for `+`, `-`, `*`, `%`; float
division for `/`; `ZeroDivisionError` for a zero divisor. -/
def pyEvalBin (left : String) (sym : Char) (right : String) : Except String String :=
  let a := pyToNat left
  let b := pyToNat right
  if sym == '+' then .ok (toString (a + b))
  else if sym == '-' then .ok (toString ((a : Int) - (b : Int)))
  else if sym == '*' then .ok (toString (a * b))
  else if sym == '/' then
    if b == 0 then .error "ZeroDivisionError" else .ok (pyFloatDivRepr a b)
  else if sym == '%' then
    if b == 0 then .error "ZeroDivisionError" else .ok (toString (a % b))
  else .error "ZeroDivisionError"

/-- The candidate operator symbols of `constant_folding`, in source order. -/
def cfSyms : List Char := ['+', '-', '*', '/', '%']

/-- The first symbol of `cfSyms` that `opb` starts with (at most one can match,
since each candidate is a single character). -/
def cfFindSym (opb : String) : Option Char :=
  cfSyms.find? (fun sym => strStarts (String.singleton sym) opb)

/-- One step of `constant_folding`: threads the `consts` map and the output
list.  Mirrors the source exactly: a `binop` whose packed field starts with an
operator symbol and whose left operand and extracted right text are both digit
strings is replaced by an assignment of the evaluated constant (recording
destination → constant); any other `binop` passes through unchanged; a
non-`binop` instruction has its operands substituted from `consts`.  Python
raises `AttributeError` where a `None` field is used as a string. -/
def cfInstr (consts : List (Option String × String)) (acc : List Instruction)
    (instr : Instruction) :
    Except String (List (Option String × String) × List Instruction) :=
  if instr.op = "binop" then
    match instr.arg2 with
    | none => .error "AttributeError"
    | some opb =>
      match cfFindSym opb with
      | none => .ok (consts, acc ++ [instr])
      | some sym =>
        let right := strDrop1 opb
        match instr.arg1 with
        | none => .error "AttributeError"
        | some left =>
          if pyIsDigit left && pyIsDigit right then
            match pyEvalBin left sym right with
            | .error e => .error e
            | .ok result =>
              .ok (dictSet consts instr.dest result,
                acc ++ [⟨"assign", instr.dest, some result, none, none⟩])
          else .ok (consts, acc ++ [instr])
  else
    let instr1 :=
      match dictGet consts instr.arg1 with
      | some v => { instr with arg1 := some v }
      | none => instr
    let instr2 :=
      match dictGet consts instr.arg2 with
      | some v => { instr1 with arg2 := some v }
      | none => instr1
    .ok (consts, acc ++ [instr2])

/-- Tail of `constant_folding`: fold `cfInstr` over the instruction list. -/
def cfGo : List Instruction → List (Option String × String) → List Instruction →
    Except String (List Instruction)
  | [], _, acc => .ok acc
  | i :: t, consts, acc =>
    match cfInstr consts acc i with
    | .error e => .error e
    | .ok (c', acc') => cfGo t c' acc'

/-- `optimizer.constant_folding`. -/
def constant_folding (ir : List Instruction) : Except String (List Instruction) :=
  cfGo ir [] []

/-! ### Dead-code elimination (`optimizer.py`: `dead_code_elimination`) -/

/-- Add an operand to the used set when it is truthy and not a digit string. -/
def dceUsedAdd (u : List String) (o : Option String) : List String :=
  match o with
  | none => u
  | some s => if s ≠ "" && !pyIsDigit s then insertStr s u else u

/-- The initial used set: all non-digit operands of the whole list. -/
def dceInitUsed (ir : List Instruction) : List String :=
  ir.foldl (fun u i => dceUsedAdd (dceUsedAdd u i.arg1) i.arg2) []

/-- One step of the reverse scan: drop a plain assignment whose destination is
unused; otherwise keep the instruction and mark its operands and destination
used. -/
def dceStep (instr : Instruction) (st : List String × List Instruction) :
    List String × List Instruction :=
  if pyTruthy instr.dest && instr.op == "assign" && !optMem instr.dest st.1 then
    st
  else
    ((if pyTruthy instr.dest then
        insertStr (instr.dest.getD "") (dceUsedAdd (dceUsedAdd st.1 instr.arg1) instr.arg2)
      else dceUsedAdd (dceUsedAdd st.1 instr.arg1) instr.arg2),
     instr :: st.2)

/-- `optimizer.dead_code_elimination`: a single reverse scan seeded with the
used-operand set of the whole input (the reverse iteration with prepend is a
right fold). -/
def dead_code_elimination (ir : List Instruction) : List Instruction :=
  (ir.foldr dceStep (dceInitUsed ir, [])).2

/-! ### Strength reduction (`optimizer.py`: `strength_reduction`) -/

/-- `optimizer.strength_reduction`: rewrite a `binop` whose packed field is
exactly the string "*2" into the unary shift `shl1`. -/
def strength_reduction (ir : List Instruction) : List Instruction :=
  ir.map (fun instr =>
    if instr.op == "binop" && instr.arg2 == some "*2" then
      ⟨"unop", instr.dest, some "shl1", instr.arg1, none⟩
    else instr)

/-! ### Common-subexpression elimination (`optimizer.py`) -/

/-- Tail of `common_subexpression_elimination`: forward scan keyed by
`(op, arg1, arg2)` for `binop` instructions. -/
def cseGo : List Instruction →
    List ((String × Option String × Option String) × Option String) →
    List Instruction → List Instruction
  | [], _, acc => acc
  | instr :: t, em, acc =>
    if instr.op = "binop" then
      let key := (instr.op, instr.arg1, instr.arg2)
      match dictGet em key with
      | some prev => cseGo t em (acc ++ [⟨"assign", instr.dest, prev, none, none⟩])
      | none => cseGo t (dictSet em key instr.dest) (acc ++ [instr])
    else cseGo t em (acc ++ [instr])

/-- `optimizer.common_subexpression_elimination`. -/
def common_subexpression_elimination (ir : List Instruction) : List Instruction :=
  cseGo ir [] []

/-! ### Loop-invariant motion (`optimizer.py`: `loop_invariant_motion`) -/

/-- The inner scan locating the matching end label: first index `j` at or after
the start position holding `label` with text `endLbl`, else the list length.
`fuel` bounds the scan; `ir.length` steps always suffice. -/
def limFindEnd (ir : List Instruction) (endLbl : String) : Nat → Nat → Nat
  | 0, j => j
  | fuel + 1, j =>
    if h : j < ir.length then
      let instr := ir.get ⟨j, h⟩
      if instr.op == "label" && instr.label == some endLbl then j
      else limFindEnd ir endLbl fuel (j + 1)
    else j

/-- The loop-body invariants: instructions with a truthy destination, of kind
`binop`, `unop` or `assign`, whose operands are not defined anywhere in the
body. -/
def limInvariants (body : List Instruction) : List Instruction :=
  let defs := body.foldl
    (fun d i => if pyTruthy i.dest then insertStr (i.dest.getD "") d else d) []
  body.filter (fun i =>
    pyTruthy i.dest && (i.op == "binop" || i.op == "unop" || i.op == "assign") &&
    (!optMem i.arg1 defs && (!pyTruthy i.arg2 || !optMem i.arg2 defs)))

/-- The index-driven while loop of `loop_invariant_motion`.  At a label whose
text starts with "for", the matching end label is searched for by literal
concatenation of the start label and "end"; when found, the invariants are
emitted after the start label, the body is re-emitted, and the index jumps to
just past the end label (so the end-label instruction itself is not re-emitted).
`fuel` bounds the iteration count; `ir.length + 1` always suffices because the
index strictly increases. -/
def limGo (ir : List Instruction) : Nat → Nat → List Instruction
  | 0, _ => []
  | fuel + 1, i =>
    if h : i < ir.length then
      let instr := ir.get ⟨i, h⟩
      if instr.op == "label" && pyTruthy instr.label &&
          strStarts "for" (instr.label.getD "") then
        let endLbl := instr.label.getD "" ++ "end"
        let j := limFindEnd ir endLbl ir.length (i + 1)
        if j < ir.length then
          let body := (ir.drop (i + 1)).take (j - (i + 1))
          instr :: (limInvariants body ++ body ++ limGo ir fuel (j + 1))
        else instr :: limGo ir fuel (i + 1)
      else instr :: limGo ir fuel (i + 1)
    else []

/-- `optimizer.loop_invariant_motion`. -/
def loop_invariant_motion (ir : List Instruction) : List Instruction :=
  limGo ir (ir.length + 1) 0

/-- `optimizer.optimize`: the five passes in fixed order; an exception from
constant folding aborts the pipeline. -/
def optimize (ir : List Instruction) : Except String (List Instruction) := do
  let ir1 ← constant_folding ir
  let ir2 := dead_code_elimination ir1
  let ir3 := strength_reduction ir2
  let ir4 := common_subexpression_elimination ir3
  let ir5 := loop_invariant_motion ir4
  return ir5

/-! ### The location allocator (`regalloc.py`: class `RegisterAllocator`)

Python dict keys here are either strings or `None` (the native emitter passes
raw `dest` fields), so the key type is a parameter; the client code
instantiates it with `String` or `Option String`. -/

structure RegisterAllocator (α : Type) where
  free_regs : List String
  locations : List (α × String)
  next_slot : Nat
deriving DecidableEq, Repr

/-- The freshly constructed allocator (`__init__`). -/
def RegisterAllocator.init {α : Type} : RegisterAllocator α :=
  { free_regs := ["rax", "rbx", "rcx", "rdx"], locations := [], next_slot := 0 }

/-- `RegisterAllocator.reset`: restore the pool, clear the map, zero the slot
counter. -/
def RegisterAllocator.reset {α : Type} (_st : RegisterAllocator α) :
    RegisterAllocator α := RegisterAllocator.init

/-- `RegisterAllocator.allocate`: return the existing location, else pop the
first free register, else take the next 8-byte stack slot. -/
def RegisterAllocator.allocate {α : Type} [DecidableEq α] (name : α)
    (st : RegisterAllocator α) : String × RegisterAllocator α :=
  match dictGet st.locations name with
  | some loc => (loc, st)
  | none =>
    match st.free_regs with
    | r :: rest =>
      (r, { st with free_regs := rest, locations := dictSet st.locations name r })
    | [] =>
      let offset := st.next_slot + 8
      let loc := "[rbp-" ++ toString offset ++ "]"
      (loc, { st with locations := dictSet st.locations name loc,
                      next_slot := offset })

/-- `RegisterAllocator.get_location`: allocate on first sight, then read the
map (the read never misses; `getD` with an empty default mirrors the
impossible `KeyError` branch and is proved unreachable below). -/
def RegisterAllocator.get_location {α : Type} [DecidableEq α] (name : α)
    (st : RegisterAllocator α) : String × RegisterAllocator α :=
  let st1 := if (dictGet st.locations name).isNone
             then (RegisterAllocator.allocate name st).2 else st
  ((dictGet st1.locations name).getD "", st1)

/-- `RegisterAllocator.allocate_stack_slot`: unconditionally take a fresh
slot, overwrite the mapping, return the raw offset. -/
def RegisterAllocator.allocate_stack_slot {α : Type} [DecidableEq α] (name : α)
    (st : RegisterAllocator α) : Nat × RegisterAllocator α :=
  let offset := st.next_slot + 8
  (offset, { st with next_slot := offset,
                     locations := dictSet st.locations name
                       ("[rbp-" ++ toString offset ++ "]") })

/-- `RegisterAllocator.stack_size`: the slot high-water mark rounded up to
16-byte alignment (`((next_slot + 15) // 16) * 16`). -/
def RegisterAllocator.stack_size {α : Type} (st : RegisterAllocator α) : Nat :=
  ((st.next_slot + 15) / 16) * 16

/-! ### The native emitter (`codegen.py`: class `CodeGenerator`)

State threads the allocator (keys are the raw `Option String` fields) and the
output lines.  Points where the Python would raise (a `None` field used as a
string) return `Except.error`. -/

structure CGState where
  regalloc : RegisterAllocator (Option String)
  asm : List String
deriving DecidableEq, Repr

/-- `CodeGenerator._is_memory`: a bracket anywhere in the operand text. -/
def is_memory (s : String) : Bool := s.data.contains '['

/-- `CodeGenerator._operand`: `None` becomes "0", digit strings pass through,
anything else is located (allocating on first sight) and memory locations are
prefixed with a size annotation. -/
def cg_operand (x : Option String) (st : CGState) : String × CGState :=
  match x with
  | none => ("0", st)
  | some s =>
    if pyIsDigit s then (s, st)
    else
      let r := RegisterAllocator.get_location (some s) st.regalloc
      ((if is_memory r.1 then "qword " ++ r.1 else r.1),
       { st with regalloc := r.2 })

/-- `CodeGenerator._binop_map` (callers guard the operator). -/
def binop_map (o : String) : String :=
  if o == "+" then "add" else if o == "-" then "sub" else "imul"

/-- `CodeGenerator._cmp_map` (callers guard the operator). -/
def cmp_map (o : String) : String :=
  if o == "<" then "setl" else if o == "<=" then "setle"
  else if o == ">" then "setg" else if o == ">=" then "setge"
  else if o == "==" then "sete" else "setne"

/-- `CodeGenerator._handle_binop`: locate the destination, split the packed
"op value" field at its first space (a field with no space yields the whole
text as both operator and right operand), resolve both operands in order, then
lower arithmetic through `rax`, comparisons through a flag-set and widen
(staging the right side through `rbx` when both sides are memory), and emit a
placeholder comment for any other operator. -/
def cg_handle_binop (instr : Instruction) (st : CGState) : Except String CGState :=
  let r0 := RegisterAllocator.get_location instr.dest st.regalloc
  let dst := r0.1
  let st := { st with regalloc := r0.2 }
  match instr.arg2 with
  | none => .error "AttributeError"
  | some a2 =>
    let parts := pySplitOnce ' ' a2
    let operator := parts.1
    let right_operand := match parts.2 with | some r => r | none => parts.1
    let r1 := cg_operand instr.arg1 st
    let lhs := r1.1
    let st := r1.2
    let r2 := cg_operand (some right_operand) st
    let rhs := r2.1
    let st := r2.2
    if operator == "+" || operator == "-" || operator == "*" then
      .ok { st with asm := st.asm ++
        ["    mov rax, " ++ lhs,
         "    " ++ binop_map operator ++ " rax, " ++ rhs,
         "    mov " ++ dst ++ ", rax"] }
    else if operator == "<" || operator == "<=" || operator == ">" ||
        operator == ">=" || operator == "==" || operator == "!=" then
      let cmpLines :=
        if is_memory lhs && is_memory rhs then
          ["    mov rbx, " ++ rhs, "    cmp " ++ lhs ++ ", rbx"]
        else
          ["    cmp " ++ lhs ++ ", " ++ rhs]
      .ok { st with asm := st.asm ++ cmpLines ++
        ["    " ++ cmp_map operator ++ " al",
         "    movzx rax, al",
         "    mov " ++ dst ++ ", rax"] }
    else
      .ok { st with asm := st.asm ++ ["    ; unhandled binop " ++ operator] }

/-- `CodeGenerator._handle_unop`: stage through `rax`; the source tests the
operand field `a2` (not the operator field) against "-" to pick `neg`. -/
def cg_handle_unop (instr : Instruction) (st : CGState) : CGState :=
  let r0 := RegisterAllocator.get_location instr.dest st.regalloc
  let dst := r0.1
  let st := { st with regalloc := r0.2 }
  let r1 := cg_operand instr.arg2 st
  let val := r1.1
  let st := r1.2
  { st with asm := st.asm ++
    ["    mov rax, " ++ val,
     (if instr.arg2 == some "-" then "    neg rax" else "    not rax"),
     "    mov " ++ dst ++ ", rax"] }

/-- `CodeGenerator._handle_call`: first four arguments into rcx/rdx/r8/r9,
the rest pushed in reverse, fixed 32-byte shadow space around the call,
overflow-argument cleanup, and the result moved from `rax` when a destination
is present. -/
def cg_handle_call (instr : Instruction) (st : CGState) : CGState :=
  let args := match instr.arg2 with
    | some s => if s ≠ "" then pySplitAll ',' s else []
    | none => []
  let regs : List String := ["rcx", "rdx", "r8", "r9"]
  let st := ((args.take 4).enum).foldl
    (fun s p =>
      let r := cg_operand (some p.2) s
      { r.2 with asm := r.2.asm ++
        ["    mov " ++ regs.getD p.1 "" ++ ", " ++ r.1] })
    st
  let st := ((args.drop 4).reverse).foldl
    (fun s a =>
      let r := cg_operand (some a) s
      { r.2 with asm := r.2.asm ++ ["    push " ++ r.1] })
    st
  let st := { st with asm := st.asm ++
    ["    sub rsp, 32", "    call " ++ pyFmt instr.arg1, "    add rsp, 32"] }
  let st := if args.length > 4 then
      { st with asm := st.asm ++
        ["    add rsp, " ++ toString (8 * (args.length - 4))] }
    else st
  if pyTruthy instr.dest then
    let r := RegisterAllocator.get_location instr.dest st.regalloc
    { regalloc := r.2, asm := st.asm ++ ["    mov " ++ r.1 ++ ", rax"] }
  else st

/-- `CodeGenerator._emit`: the per-instruction dispatch.  A `label`
instruction is emitted only when its label is truthy and not "main" (the
"main" label falls through every branch and hits the placeholder case). -/
def cg_emit (instr : Instruction) (st : CGState) : Except String CGState :=
  if instr.op == "label" && pyTruthy instr.label && instr.label != some "main" then
    .ok { st with asm := st.asm ++ [pyFmt instr.label ++ ":"] }
  else if instr.op == "assign" then
    let r0 := RegisterAllocator.get_location instr.dest st.regalloc
    let dst := r0.1
    let st := { st with regalloc := r0.2 }
    let r1 := cg_operand instr.arg1 st
    let src := r1.1
    let st := r1.2
    if is_memory dst && is_memory src then
      .ok { st with asm := st.asm ++
        ["    mov rax, " ++ src, "    mov " ++ dst ++ ", rax"] }
    else
      .ok { st with asm := st.asm ++ ["    mov " ++ dst ++ ", " ++ src] }
  else if instr.op == "binop" then
    cg_handle_binop instr st
  else if instr.op == "unop" then
    .ok (cg_handle_unop instr st)
  else if instr.op == "call" then
    .ok (cg_handle_call instr st)
  else if instr.op == "print" then
    let r := cg_operand instr.arg1 st
    .ok { r.2 with asm := r.2.asm ++
      ["    mov rcx, fmt_print", "    mov rdx, " ++ r.1,
       "    sub rsp, 32", "    call printf", "    add rsp, 32"] }
  else if instr.op == "read" then
    let r0 := RegisterAllocator.get_location instr.dest st.regalloc
    let loc := r0.1
    let st := { st with regalloc := r0.2 }
    let addrSt :=
      if is_memory loc then (loc, st)
      else
        let r1 := RegisterAllocator.allocate_stack_slot instr.dest st.regalloc
        let addr := "[rbp-" ++ toString r1.1 ++ "]"
        (addr, { regalloc := r1.2,
                 asm := st.asm ++ ["    mov " ++ addr ++ ", " ++ loc] })
    let addr := addrSt.1
    let st := addrSt.2
    let st := { st with asm := st.asm ++
      ["    mov rcx, fmt_read", "    lea rdx, " ++ addr,
       "    sub rsp, 32", "    call scanf", "    add rsp, 32"] }
    if !is_memory loc then
      .ok { st with asm := st.asm ++ ["    mov " ++ loc ++ ", " ++ addr] }
    else .ok st
  else if instr.op == "ret" then
    .ok { st with asm := st.asm ++ ["    xor rax, rax"] }
  else if instr.op == "ifz" then
    let r := cg_operand instr.arg1 st
    .ok { r.2 with asm := r.2.asm ++
      ["    cmp " ++ r.1 ++ ", 0", "    je " ++ pyFmt instr.label] }
  else if instr.op == "goto" then
    .ok { st with asm := st.asm ++ ["    jmp " ++ pyFmt instr.label] }
  else
    .ok { st with asm := st.asm ++ ["    ; unhandled " ++ reprInstr instr] }

/-- `CodeGenerator.generate`: reset the allocator, emit the fixed prologue
(the stack reservation is computed from `stack_size()` at this point — before
any instruction has been emitted), lower each instruction, then the fixed
epilogue.  The source's bit trick `(sz + 15) & ~15` equals
`((sz + 15) / 16) * 16` for the nonnegative sizes involved. -/
def cg_generateSt (tac : List Instruction) : Except String CGState := do
  let st0 : CGState :=
    { regalloc := RegisterAllocator.reset RegisterAllocator.init, asm := [] }
  let sz := RegisterAllocator.stack_size st0.regalloc
  let aligned_sz := ((sz + 15) / 16) * 16
  let st1 := { st0 with asm := st0.asm ++
    ["global main", "extern printf", "extern scanf",
     "section .data",
     "fmt_print: db \"%d\", 10, 0",
     "fmt_read:  db \"%d\", 0",
     "section .text", "main:",
     "    push rbp", "    mov rbp, rsp",
     (if aligned_sz > 0 then "    sub rsp, " ++ toString (aligned_sz + 32)
      else "    sub rsp, 32")] }
  let st2 ← tac.foldlM (fun s i => cg_emit i s) st1
  pure { st2 with asm := st2.asm ++ ["    mov rsp, rbp", "    pop rbp", "    ret"] }

/-- The emitted native text (the list returned by `generate`). -/
def cg_generate (tac : List Instruction) : Except String (List String) :=
  (cg_generateSt tac).map CGState.asm

/-! ### The portable emitter (`llvm_codegen.py`: class `LLVMCodeGenerator`) -/

structure LLState where
  lines : List String
  regcnt : Nat
  current_block : Option String
deriving Repr

/-- `LLVMCodeGenerator._reg`: the next `%rN` temporary. -/
def ll_reg (st : LLState) : String × LLState :=
  ("%r" ++ toString st.regcnt, { st with regcnt := st.regcnt + 1 })

/-- `LLVMCodeGenerator._handle_read`: alloca plus a scanf call. -/
def ll_handle_read (dest : Option String) (st : LLState) : LLState :=
  { st with lines := st.lines ++
    ["  %" ++ pyFmt dest ++ " = alloca i32",
     "  call i32 (i8*, ...) @scanf(i8* getelementptr ([3 x i8], [3 x i8]* @.in, i32 0, i32 0), i32* %" ++ pyFmt dest ++ ")"] }

/-- `LLVMCodeGenerator._handle_assign`: alloca the destination, load the
source when it is an identifier, store. -/
def ll_handle_assign (dest value : Option String) (st : LLState) :
    Except String LLState :=
  match value with
  | none => .error "AttributeError"
  | some v =>
    let st := { st with lines := st.lines ++
      ["  %" ++ pyFmt dest ++ " = alloca i32"] }
    if pyIsIdentifier v then
      let r := ll_reg st
      let st := { r.2 with lines := r.2.lines ++
        ["  " ++ r.1 ++ " = load i32, i32* %" ++ v] }
      .ok { st with lines := st.lines ++
        ["  store i32 " ++ r.1 ++ ", i32* %" ++ pyFmt dest] }
    else
      .ok { st with lines := st.lines ++
        ["  store i32 " ++ v ++ ", i32* %" ++ pyFmt dest] }

/-- `LLVMCodeGenerator._emit_arithmetic`: load both operands (as pointers),
apply add/sub/mul, alloca the destination and store. -/
def ll_emit_arithmetic (dest : Option String) (op : String)
    (left : Option String) (right : String) (st : LLState) :
    Except String LLState :=
  match left with
  | none => .error "AttributeError"
  | some l =>
    let instr_map := if op == "+" then "add" else if op == "-" then "sub" else "mul"
    let lptr := if strStarts "%" l then l else "%" ++ l
    let r1 := ll_reg st
    let st := { r1.2 with lines := r1.2.lines ++
      ["  " ++ r1.1 ++ " = load i32, i32* " ++ lptr] }
    let rptr := if strStarts "%" right then right else "%" ++ right
    let r2 := ll_reg st
    let st := { r2.2 with lines := r2.2.lines ++
      ["  " ++ r2.1 ++ " = load i32, i32* " ++ rptr] }
    let r3 := ll_reg st
    let st := { r3.2 with lines := r3.2.lines ++
      ["  " ++ r3.1 ++ " = " ++ instr_map ++ " i32 " ++ r1.1 ++ ", " ++ r2.1] }
    .ok { st with lines := st.lines ++
      ["  %" ++ pyFmt dest ++ " = alloca i32",
       "  store i32 " ++ r3.1 ++ ", i32* %" ++ pyFmt dest] }

/-- `LLVMCodeGenerator._emit_comparison`: icmp then zext then store; an
operator outside the comparison map is a `KeyError`. -/
def ll_emit_comparison (dest : Option String) (op : String)
    (left : Option String) (right : String) (st : LLState) :
    Except String LLState :=
  let cmpOp : Option String :=
    if op == "<" then some "slt" else if op == "<=" then some "sle"
    else if op == ">" then some "sgt" else if op == ">=" then some "sge"
    else if op == "==" then some "eq" else if op == "!=" then some "ne"
    else none
  match left with
  | none => .error "AttributeError"
  | some l =>
    let lv := if pyIsIdentifier l then "%" ++ l else l
    let rv := if pyIsIdentifier right then "%" ++ right else right
    match cmpOp with
    | none => .error "KeyError"
    | some c =>
      let r1 := ll_reg st
      let st := { r1.2 with lines := r1.2.lines ++
        ["  " ++ r1.1 ++ " = icmp " ++ c ++ " i32 " ++ lv ++ ", " ++ rv] }
      let r2 := ll_reg st
      let st := { r2.2 with lines := r2.2.lines ++
        ["  " ++ r2.1 ++ " = zext i1 " ++ r1.1 ++ " to i32"] }
      .ok { st with lines := st.lines ++
        ["  %" ++ pyFmt dest ++ " = alloca i32",
         "  store i32 " ++ r2.1 ++ ", i32* %" ++ pyFmt dest] }

/-- `LLVMCodeGenerator._handle_binop`: split the packed field at its first
space (a field with no space fails tuple unpacking, Python `ValueError`);
`+`, `-`, `*` go to arithmetic, everything else to comparison. -/
def ll_handle_binop (dest left right_expr : Option String) (st : LLState) :
    Except String LLState :=
  match right_expr with
  | none => .error "AttributeError"
  | some re =>
    let parts := pySplitOnce ' ' re
    match parts.2 with
    | none => .error "ValueError"
    | some right =>
      let op_symbol := parts.1
      if op_symbol == "+" || op_symbol == "-" || op_symbol == "*" then
        ll_emit_arithmetic dest op_symbol left right st
      else
        ll_emit_comparison dest op_symbol left right st

/-- `LLVMCodeGenerator._handle_print`: load the value cell, call printf. -/
def ll_handle_print (value : Option String) (st : LLState) :
    Except String LLState :=
  match value with
  | none => .error "AttributeError"
  | some v =>
    let ptr := if strStarts "%" v then v else "%" ++ v
    let r := ll_reg st
    .ok { r.2 with lines := r.2.lines ++
      ["  " ++ r.1 ++ " = load i32, i32* " ++ ptr,
       "  call i32 (i8*, ...) @printf(i8* getelementptr ([4 x i8], [4 x i8]* @.out, i32 0, i32 0), i32 " ++ r.1 ++ ")"] }

/-- `LLVMCodeGenerator._handle_ifz`: zero-test, conditional branch to the TAC
label or to a fresh fallthrough block `nextN` (numbered from the register
counter), which is opened immediately. -/
def ll_handle_ifz (cond : Option String) (label : Option String) (st : LLState) :
    LLState :=
  let st := { st with lines := st.lines ++
    ["  %cond = load i32, i32* %" ++ pyFmt cond,
     "  %check = icmp eq i32 %cond, 0"] }
  let nextb := "next" ++ toString st.regcnt
  let st := { st with regcnt := st.regcnt + 1 }
  let brLine := "  br i1 %check, label %" ++ pyFmt label ++ ", label %" ++ nextb
  let openLine := nextb ++ ":"
  { st with lines := st.lines ++ [brLine, openLine],
            current_block := some nextb }

/-- `LLVMCodeGenerator._handle_goto`: unconditional branch; the current block
becomes `None`. -/
def ll_handle_goto (label : Option String) (st : LLState) : LLState :=
  { st with lines := st.lines ++ ["  br label %" ++ pyFmt label],
            current_block := none }

/-- `LLVMCodeGenerator._handle_ret`. -/
def ll_handle_ret (st : LLState) : LLState :=
  { st with lines := st.lines ++ ["  ret i32 0"] }

/-- One iteration of the walk in `LLVMCodeGenerator.generate`.  A non-"main"
label opens a block (with a fallthrough branch when the current block does not
already end in one); instruction kinds outside the dispatch chain (for example
`unop` and `call`) are skipped silently. -/
def ll_step (st : LLState) (instr : Instruction) : Except String LLState :=
  if instr.op == "label" then
    if instr.label != some "main" then
      let st1 := if st.current_block != instr.label then
          { st with lines := st.lines ++
            ["  br label %" ++ pyFmt instr.label] }
        else st
      .ok { st1 with lines := st1.lines ++ [pyFmt instr.label ++ ":"],
                     current_block := instr.label }
    else .ok st
  else if instr.op == "read" then .ok (ll_handle_read instr.dest st)
  else if instr.op == "assign" then ll_handle_assign instr.dest instr.arg1 st
  else if instr.op == "binop" then ll_handle_binop instr.dest instr.arg1 instr.arg2 st
  else if instr.op == "print" then ll_handle_print instr.arg1 st
  else if instr.op == "ifz" then .ok (ll_handle_ifz instr.arg1 instr.label st)
  else if instr.op == "goto" then .ok (ll_handle_goto instr.label st)
  else if instr.op == "ret" then .ok (ll_handle_ret st)
  else .ok st

/-- `LLVMCodeGenerator.generate`: fixed prologue (declarations, format
constants, the opened `entry` block), the walk, then the epilogue (an
implicit `ret` unless still in `entry`, and the closing brace). -/
def ll_generate (ir : List Instruction) : Except String (List String) := do
  let st0 : LLState :=
    { lines :=
        ["declare i32 @printf(i8*, ...)",
         "declare i32 @scanf(i8*, ...)",
         "@.in = constant [3 x i8] c\"%d\\00\"",
         "@.out = constant [4 x i8] c\"%d\\0A\\00\"",
         "",
         "define i32 @main() \x7b",
         "entry:"],
      regcnt := 0,
      current_block := some "entry" }
  let st ← ir.foldlM ll_step st0
  let st := if st.current_block != some "entry" then
      { st with lines := st.lines ++ ["  ret i32 0"] }
    else st
  pure (st.lines ++ ["\x7d"])

/-! ### The AST (`ast_nodes.py`) and the IR builder (`ir.py`: `IRGenerator`)

One inductive covers all AST node classes (the Python tree is untyped; the
front end guarantees shapes).  Literal values are integers here — the language
paths exercised in this development are integer-only, matching the core's
stated non-goal of floating-point code paths. -/

inductive Node where
  | Program (funcs : List Node)
  | FuncDecl (rtype : String) (name : String) (params : List Node) (body : Node)
  | VarDecl (vtype : String) (name : String) (init : Option Node)
  | Block (stmts : List Node)
  | IfStmt (cond : Node) (thenb : Node) (elseb : Option Node)
  | WhileStmt (cond : Node) (body : Node)
  | ForStmt (init : Option Node) (cond : Option Node) (post : Option Node)
      (body : Node)
  | SwitchStmt (expr : Node) (cases : List Node)
  | Case (value : Option Node) (body : Node)
  | BreakStmt
  | ReturnStmt (expr : Node)
  | PrintStmt (expr : Node)
  | ReadStmt (name : String)
  | ReadExpr
  | Assign (name : String) (expr : Node)
  | BinOp (op : String) (left : Node) (right : Node)
  | UnOp (op : String) (expr : Node)
  | Literal (value : Int)
  | VarRef (name : String)
  | FuncCall (name : String) (args : List Node)

/-- The mutable fields of `IRGenerator`. -/
structure GenState where
  temp_cnt : Nat
  label_cnt : Nat
  code : List Instruction
deriving Repr

/-- `IRGenerator.new_temp`. -/
def new_temp (st : GenState) : String × GenState :=
  ("t" ++ toString st.temp_cnt, { st with temp_cnt := st.temp_cnt + 1 })

/-- `IRGenerator.new_label`. -/
def new_label (base : String) (st : GenState) : String × GenState :=
  (base ++ toString st.label_cnt, { st with label_cnt := st.label_cnt + 1 })

/-- `IRGenerator._emit`. -/
def genEmit (i : Instruction) (st : GenState) : GenState :=
  { st with code := st.code ++ [i] }

/-- The per-case label allocation loop of `_gen_SwitchStmt` (no recursion into
subtrees): one fresh "case" label per case; the default label is the label of
the last value-less case.  A non-`Case` entry is the Python attribute error. -/
def switchLabelsAux : List Node → GenState →
    Except String (List String × Option String × GenState)
  | [], st => .ok ([], none, st)
  | c :: t, st =>
    match c with
    | .Case v _ => do
      let r := new_label "case" st
      let (rest, dflt, st') ← switchLabelsAux t r.2
      let dflt' := match dflt with
        | some d => some d
        | none => if v.isNone then some r.1 else none
      .ok (r.1 :: rest, dflt', st')
    | _ => .error "AttributeError"

/-- Python `",".join(args)` over possibly-`None` results: a `None` in the list
is a `TypeError`. -/
def optJoin (vs : List (Option String)) : Option String :=
  if vs.any Option.isNone then none
  else some (String.intercalate "," (vs.map (fun v => v.getD "")))

mutual

/-- `IRGenerator._gen`: dispatch on the node's class.  A node class with no
generator method (`Case`, `BreakStmt`, `Program` aside — `Program` has one) is
the source's "No IR gen" exception.  Expression generators return a value
string; statement generators return `none` (Python `None`). -/
def gen : Node → GenState → Except String (Option String × GenState)
  | .Program funcs, st => do
    let st ← genFuncList funcs st
    .ok (none, st)
  | .FuncDecl _ name _ body, st => do
    let st ← genFuncDeclCore name body st
    .ok (none, st)
  | .VarDecl _ name init, st =>
    (match init with
     | some e => do
       let (v, st) ← gen e st
       .ok (none, genEmit ⟨"assign", some name, v, none, none⟩ st)
     | none => .ok (none, st))
  | .Block stmts, st => do
    let st ← genStmts stmts st
    .ok (none, st)
  | .IfStmt cond thenb elseb, st => do
    let (else_lbl, st) := new_label "else" st
    let (end_lbl, st) := new_label "ifend" st
    let (c, st) ← gen cond st
    let st := genEmit ⟨"ifz", none, c, none, some else_lbl⟩ st
    let st ← genAsBlock thenb st
    let st := genEmit ⟨"goto", none, none, none, some end_lbl⟩ st
    let st := genEmit ⟨"label", none, none, none, some else_lbl⟩ st
    let st ← (match elseb with
      | some b => genAsBlock b st
      | none => .ok st)
    .ok (none, genEmit ⟨"label", none, none, none, some end_lbl⟩ st)
  | .WhileStmt cond body, st => do
    let (start, st) := new_label "while" st
    let (endl, st) := new_label "wend" st
    let st := genEmit ⟨"label", none, none, none, some start⟩ st
    let (c, st) ← gen cond st
    let st := genEmit ⟨"ifz", none, c, none, some endl⟩ st
    let st ← genAsBlock body st
    let st := genEmit ⟨"goto", none, none, none, some start⟩ st
    .ok (none, genEmit ⟨"label", none, none, none, some endl⟩ st)
  | .ForStmt init cond post body, st => do
    let (start, st) := new_label "for" st
    let (endl, st) := new_label "forend" st
    let st ← (match init with
      | some n => do
        let (_, st) ← gen n st
        .ok st
      | none => .ok st)
    let st := genEmit ⟨"label", none, none, none, some start⟩ st
    let st ← (match cond with
      | some n => do
        let (c, st) ← gen n st
        .ok (genEmit ⟨"ifz", none, c, none, some endl⟩ st)
      | none => .ok st)
    let st ← genAsBlock body st
    let st ← (match post with
      | some n => do
        let (_, st) ← gen n st
        .ok st
      | none => .ok st)
    let st := genEmit ⟨"goto", none, none, none, some start⟩ st
    .ok (none, genEmit ⟨"label", none, none, none, some endl⟩ st)
  | .SwitchStmt expr cases, st => do
    let (end_lbl, st) := new_label "swend" st
    let (e, st) ← gen expr st
    match switchLabelsAux cases st with
    | .error err => .error err
    | .ok (lbls, default_lbl, st) => do
      let st ← genSwitchTests cases lbls e st
      let st := genEmit ⟨"goto", none, none, none,
        some (match default_lbl with | some d => d | none => end_lbl)⟩ st
      let st ← genSwitchBodies cases lbls end_lbl st
      .ok (none, genEmit ⟨"label", none, none, none, some end_lbl⟩ st)
  | .Case _ _, _ => .error "No IR gen for Case"
  | .BreakStmt, _ => .error "No IR gen for BreakStmt"
  | .ReturnStmt e, st => do
    let (v, st) ← gen e st
    .ok (none, genEmit ⟨"ret", none, v, none, none⟩ st)
  | .PrintStmt e, st => do
    let (v, st) ← gen e st
    .ok (none, genEmit ⟨"print", none, v, none, none⟩ st)
  | .ReadStmt name, st =>
    .ok (none, genEmit ⟨"read", some name, none, none, none⟩ st)
  | .ReadExpr, st =>
    let (t, st) := new_temp st
    .ok (some t, genEmit ⟨"read", some t, none, none, none⟩ st)
  | .Assign name e, st => do
    let (v, st) ← gen e st
    .ok (none, genEmit ⟨"assign", some name, v, none, none⟩ st)
  | .BinOp op left right, st => do
    let (l, st) ← gen left st
    let (r, st) ← gen right st
    let (t, st) := new_temp st
    .ok (some t, genEmit ⟨"binop", some t, l, some (op ++ " " ++ pyFmt r), none⟩ st)
  | .UnOp op e, st => do
    let (v, st) ← gen e st
    let (t, st) := new_temp st
    .ok (some t, genEmit ⟨"unop", some t, some op, v, none⟩ st)
  | .Literal v, st => .ok (some (toString v), st)
  | .VarRef name, st => .ok (some name, st)
  | .FuncCall name args, st => do
    let (vs, st) ← genArgs args st
    match optJoin vs with
    | none => .error "TypeError"
    | some joined =>
      let (t, st) := new_temp st
      .ok (some t, genEmit ⟨"call", some t, some name, some joined, none⟩ st)
termination_by structural n _st => n

/-- The `_gen_Program` loop: `_gen_FuncDecl` on each entry. -/
def genFuncList : List Node → GenState → Except String GenState
  | [], st => .ok st
  | f :: t, st =>
    match f with
    | .FuncDecl _ name _ body => do
      let st ← genFuncDeclCore name body st
      genFuncList t st
    | _ => .error "AttributeError"
termination_by structural l _st => l

/-- `IRGenerator._gen_FuncDecl`: defining label, body (which must be a
`Block`, whose statement list is lowered in order), return. -/
def genFuncDeclCore (name : String) (body : Node) (st : GenState) :
    Except String GenState := do
  let st := genEmit ⟨"label", none, none, none, some name⟩ st
  let st ← (match body with
    | .Block stmts => genStmts stmts st
    | _ => .error "AttributeError")
  .ok (genEmit ⟨"ret", none, none, none, none⟩ st)
termination_by structural body

/-- `IRGenerator._gen_Block` applied to a node that must be a `Block`. -/
def genAsBlock : Node → GenState → Except String GenState
  | .Block stmts, st => genStmts stmts st
  | _, _ => .error "AttributeError"
termination_by structural n _st => n

/-- The statement loop of `_gen_Block` (dispatching through `_gen`). -/
def genStmts : List Node → GenState → Except String GenState
  | [], st => .ok st
  | s :: t, st => do
    let (_, st) ← gen s st
    genStmts t st
termination_by structural l _st => l

/-- The argument loop of `_gen_FuncCall`. -/
def genArgs : List Node → GenState → Except String (List (Option String) × GenState)
  | [], st => .ok ([], st)
  | a :: t, st => do
    let (v, st) ← gen a st
    let (vs, st) ← genArgs t st
    .ok (v :: vs, st)
termination_by structural l _st => l

/-- The comparison-emitting loop of `_gen_SwitchStmt` (the per-case labels
travel in a parallel list). -/
def genSwitchTests : List Node → List String → Option String → GenState →
    Except String GenState
  | [], _, _, st => .ok st
  | c :: cs, lbls, exprVal, st =>
    match c with
    | .Case (some v) _ => do
      let (val, st) ← gen v st
      let (tmp, st) := new_temp st
      let st := genEmit ⟨"binop", some tmp, exprVal,
        some ("== " ++ pyFmt val), none⟩ st
      let st := genEmit ⟨"ifnz", none, some tmp, none,
        some (lbls.headD "")⟩ st
      genSwitchTests cs lbls.tail exprVal st
    | .Case none _ => genSwitchTests cs lbls.tail exprVal st
    | _ => .error "AttributeError"
termination_by structural l _lbls _e _st => l

/-- The body-emitting loop of `_gen_SwitchStmt`. -/
def genSwitchBodies : List Node → List String → String → GenState →
    Except String GenState
  | [], _, _, st => .ok st
  | c :: cs, lbls, endLbl, st =>
    match c with
    | .Case _ body => do
      let st := genEmit ⟨"label", none, none, none, some (lbls.headD "")⟩ st
      let st ← genAsBlock body st
      let st := genEmit ⟨"goto", none, none, none, some endLbl⟩ st
      genSwitchBodies cs lbls.tail endLbl st
    | _ => .error "AttributeError"
termination_by structural l _lbls _e _st => l

end

/-- `IRGenerator.generate`: reset the code buffer and lower the program node
(which must be a `Program`). -/
def irGenerate (prog : Node) : Except String (List Instruction) :=
  match prog with
  | .Program funcs =>
    (genFuncList funcs { temp_cnt := 0, label_cnt := 0, code := [] }).map GenState.code
  | _ => .error "AttributeError"

/-! ### Allocator request sequences: specification machinery

`processRequests` models a client issuing `get_location` calls (the spec's
`locate`) on names in order.  The state after any request sequence is
characterized in closed form by `processRequests_master` below. -/

/-- The register pool of a fresh allocator, in hand-out order. -/
def regPool : List String := ["rax", "rbx", "rcx", "rdx"]

/-- Issue a sequence of `get_location` requests, collecting the returned
locations in order. -/
def processRequests : List String → RegisterAllocator String →
    List String × RegisterAllocator String
  | [], st => ([], st)
  | n :: t, st =>
    let r := RegisterAllocator.get_location n st
    let rest := processRequests t r.2
    (r.1 :: rest.1, rest.2)

/-- The names of `reqs` not already in `seen`, first occurrences only, in
encounter order. -/
def newFirsts (seen : List String) : List String → List String
  | [] => []
  | n :: t => if n ∈ seen then newFirsts seen t else n :: newFirsts (seen ++ [n]) t

/-- First occurrences of a request list, in encounter order. -/
def dedupFirst (reqs : List String) : List String := newFirsts [] reqs

/-- The location the allocator hands to the k-th distinct name (0-based):
the k-th pool register for k < 4, and the stack slot at byte offset
8·(k − 3) afterwards. -/
def locAt (k : Nat) : String :=
  if k < 4 then regPool.getD k "" else "[rbp-" ++ toString (8 * (k - 3)) ++ "]"

/-- Index of the first occurrence of `n` (the list length when absent). -/
def idxOf (n : String) : List String → Nat
  | [] => 0
  | a :: t => if n = a then 0 else idxOf n t + 1

/-- The locations map after the names `seen` (in first-seen order) have been
allocated, the first one receiving `locAt i`. -/
def mkLocs (i : Nat) : List String → List (String × String)
  | [] => []
  | n :: t => (n, locAt i) :: mkLocs (i + 1) t

/-- The allocator state after exactly the names `seen` (in first-seen order)
have been allocated from a fresh allocator. -/
def mkState (seen : List String) : RegisterAllocator String :=
  { free_regs := regPool.drop seen.length,
    locations := mkLocs 0 seen,
    next_slot := 8 * (seen.length - 4) }

lemma dictGet_dictSet_self {α β : Type} [DecidableEq α] (l : List (α × β))
    (a : α) (b : β) : dictGet (dictSet l a b) a = some b := by
  induction l with
  | nil => simp [dictGet, dictSet]
  | cons h t ih =>
    obtain ⟨k, v⟩ := h
    by_cases hk : a = k <;> simp [dictGet, dictSet, hk, ih]

/-- `get_location` and `allocate` agree (the read-after-ensure in
`get_location` never misses). -/
lemma get_location_eq_allocate {α : Type} [DecidableEq α] (n : α)
    (st : RegisterAllocator α) :
    RegisterAllocator.get_location n st = RegisterAllocator.allocate n st := by
  unfold RegisterAllocator.get_location RegisterAllocator.allocate
  cases h : dictGet st.locations n with
  | some loc => simp [h]
  | none =>
    cases hf : st.free_regs with
    | cons r rest => simp [h, hf, dictGet_dictSet_self]
    | nil => simp [h, hf, dictGet_dictSet_self]

lemma mkLocs_dictGet (seen : List String) (i : Nat) (n : String) :
    dictGet (mkLocs i seen) n =
      if n ∈ seen then some (locAt (i + idxOf n seen)) else none := by
  induction seen generalizing i with
  | nil => simp [mkLocs, dictGet]
  | cons a t ih =>
    by_cases ha : n = a
    · subst ha; simp [mkLocs, dictGet, idxOf]
    · simp only [mkLocs, dictGet, if_neg ha, ih (i + 1), idxOf, List.mem_cons]
      by_cases hm : n ∈ t
      · simp [hm, ha, Nat.add_assoc, Nat.add_comm 1 (idxOf n t)]
      · simp [hm, ha]

lemma dictSet_mkLocs_absent (seen : List String) (i : Nat) (n : String)
    (v : String) (hn : n ∉ seen) :
    dictSet (mkLocs i seen) n v = mkLocs i seen ++ [(n, v)] := by
  induction seen generalizing i with
  | nil => simp [mkLocs, dictSet]
  | cons a t ih =>
    have ha : n ≠ a := fun h => hn (h ▸ List.mem_cons_self a t)
    have ht : n ∉ t := fun h => hn (List.mem_cons_of_mem a h)
    simp [mkLocs, dictSet, ha, ih (i + 1) ht]

lemma mkLocs_append (s : List String) (i : Nat) (n : String) :
    mkLocs i (s ++ [n]) = mkLocs i s ++ [(n, locAt (i + s.length))] := by
  induction s generalizing i with
  | nil => simp [mkLocs]
  | cons a t ih =>
    simp [mkLocs, ih (i + 1), Nat.add_assoc, Nat.add_comm 1 t.length]

lemma idxOf_append_left (s r : List String) (n : String) (hn : n ∈ s) :
    idxOf n (s ++ r) = idxOf n s := by
  induction s with
  | nil => cases hn
  | cons a t ih =>
    by_cases ha : n = a
    · simp [idxOf, ha]
    · have : n ∈ t := by
        rcases List.mem_cons.1 hn with h | h
        · exact absurd h ha
        · exact h
      simp [idxOf, ha, ih this]

lemma idxOf_append_self (s r : List String) (n : String) (hn : n ∉ s) :
    idxOf n (s ++ n :: r) = s.length := by
  induction s with
  | nil => simp [idxOf]
  | cons a t ih =>
    have ha : n ≠ a := fun h => hn (h ▸ List.mem_cons_self a t)
    have ht : n ∉ t := fun h => hn (List.mem_cons_of_mem a h)
    simp [idxOf, ha, ih ht]

lemma drop_regPool_lt : ∀ k : Nat, k < 4 →
    regPool.drop k = locAt k :: regPool.drop (k + 1)
  | 0, _ => rfl
  | 1, _ => rfl
  | 2, _ => rfl
  | 3, _ => rfl
  | n + 4, h => absurd h (by omega)

lemma drop_regPool_ge (k : Nat) (h : 4 ≤ k) : regPool.drop k = [] := by
  apply List.drop_eq_nil_of_le
  simpa [regPool] using h

/-- Allocating a name already seen returns its existing location and leaves
the state unchanged. -/
lemma allocate_mkState_seen (seen : List String) (n : String) (hn : n ∈ seen) :
    RegisterAllocator.allocate n (mkState seen) =
      (locAt (idxOf n seen), mkState seen) := by
  unfold RegisterAllocator.allocate
  have hdg : dictGet (mkState seen).locations n = some (locAt (idxOf n seen)) := by
    simp [mkState, mkLocs_dictGet, hn]
  rw [hdg]

/-- Two allocator states with equal fields are equal. -/
lemma allocator_ext {α : Type} {a b : RegisterAllocator α}
    (h1 : a.free_regs = b.free_regs) (h2 : a.locations = b.locations)
    (h3 : a.next_slot = b.next_slot) : a = b := by
  cases a; cases b; simp_all

/-- Allocating an unseen name hands out the next location in sequence and
moves to the state with that name appended. -/
lemma allocate_mkState_new (seen : List String) (n : String) (hn : n ∉ seen) :
    RegisterAllocator.allocate n (mkState seen) =
      (locAt seen.length, mkState (seen ++ [n])) := by
  have hdg : dictGet (mkState seen).locations n = none := by
    simp [mkState, mkLocs_dictGet, hn]
  have hlen : (seen ++ [n]).length = seen.length + 1 := by simp
  have hsetloc : ∀ v, dictSet (mkLocs 0 seen) n v = mkLocs 0 seen ++ [(n, v)] :=
    fun v => dictSet_mkLocs_absent seen 0 n v hn
  have happ : mkLocs 0 (seen ++ [n]) = mkLocs 0 seen ++ [(n, locAt seen.length)] := by
    rw [mkLocs_append]
    simp
  unfold RegisterAllocator.allocate
  rw [hdg]
  rcases Nat.lt_or_ge seen.length 4 with h4 | h4
  · have hfr : (mkState seen).free_regs =
        locAt seen.length :: regPool.drop (seen.length + 1) := by
      simp only [mkState]
      exact drop_regPool_lt seen.length h4
    rw [hfr, Prod.mk.injEq]
    refine ⟨rfl, allocator_ext ?_ ?_ ?_⟩
    · simp [mkState, hlen]
    · show dictSet (mkState seen).locations n (locAt seen.length) =
        (mkState (seen ++ [n])).locations
      simp only [mkState]
      rw [hsetloc, happ]
    · show (mkState seen).next_slot = (mkState (seen ++ [n])).next_slot
      simp only [mkState, hlen]
      omega
  · have hfr : (mkState seen).free_regs = [] := by
      simp only [mkState]
      exact drop_regPool_ge seen.length h4
    rw [hfr]
    have hloc : "[rbp-" ++ toString ((mkState seen).next_slot + 8) ++ "]" =
        locAt seen.length := by
      simp only [mkState]
      unfold locAt
      rw [if_neg (by omega)]
      have h8 : 8 * (seen.length - 4) + 8 = 8 * (seen.length - 3) := by omega
      rw [h8]
    rw [Prod.mk.injEq]
    refine ⟨hloc, allocator_ext ?_ ?_ ?_⟩
    · show ([] : List String) = (mkState (seen ++ [n])).free_regs
      simp only [mkState, hlen]
      exact (drop_regPool_ge (seen.length + 1) (by omega)).symm
    · show dictSet (mkState seen).locations n
          ("[rbp-" ++ toString ((mkState seen).next_slot + 8) ++ "]") =
        (mkState (seen ++ [n])).locations
      rw [hloc]
      simp only [mkState]
      rw [hsetloc, happ]
    · show (mkState seen).next_slot + 8 = (mkState (seen ++ [n])).next_slot
      simp only [mkState, hlen]
      omega

/-- Master characterization: running any request sequence from the state in
which exactly `seen` has been allocated returns, for each request, the
location of that name's first-occurrence index, and lands in the state in
which `seen ++ newFirsts seen reqs` has been allocated. -/
lemma processRequests_master : ∀ (reqs seen : List String),
    processRequests reqs (mkState seen) =
      (reqs.map (fun n => locAt (idxOf n (seen ++ newFirsts seen reqs))),
       mkState (seen ++ newFirsts seen reqs))
  | [], seen => by simp [processRequests, newFirsts]
  | n :: t, seen => by
    by_cases hn : n ∈ seen
    · have hget : RegisterAllocator.get_location n (mkState seen) =
          (locAt (idxOf n seen), mkState seen) := by
        rw [get_location_eq_allocate, allocate_mkState_seen seen n hn]
      have ih := processRequests_master t seen
      simp only [processRequests, hget, ih, newFirsts, if_pos hn, List.map_cons]
      rw [idxOf_append_left seen (newFirsts seen t) n hn]
    · have hget : RegisterAllocator.get_location n (mkState seen) =
          (locAt seen.length, mkState (seen ++ [n])) := by
        rw [get_location_eq_allocate, allocate_mkState_new seen n hn]
      have ih := processRequests_master t (seen ++ [n])
      simp only [processRequests, hget, ih, newFirsts, if_neg hn, List.map_cons]
      rw [idxOf_append_self seen (newFirsts (seen ++ [n]) t) n hn]
      rw [show seen ++ n :: newFirsts (seen ++ [n]) t =
        (seen ++ [n]) ++ newFirsts (seen ++ [n]) t by simp]

lemma newFirsts_spec : ∀ (reqs seen : List String),
    (∀ x ∈ newFirsts seen reqs, x ∉ seen) ∧ (newFirsts seen reqs).Nodup
  | [], seen => by simp [newFirsts]
  | n :: t, seen => by
    by_cases hn : n ∈ seen
    · simpa [newFirsts, hn] using newFirsts_spec t seen
    · have ih := newFirsts_spec t (seen ++ [n])
      simp only [newFirsts, if_neg hn]
      constructor
      · intro x hx
        rcases List.mem_cons.1 hx with rfl | hx'
        · exact hn
        · intro hxs
          exact (ih.1 x hx') (by simp [hxs])
      · refine List.nodup_cons.2 ⟨?_, ih.2⟩
        intro hmem
        exact (ih.1 n hmem) (by simp)

lemma dedupFirst_nodup (reqs : List String) : (dedupFirst reqs).Nodup :=
  (newFirsts_spec reqs []).2

lemma idxOf_get? : ∀ (U : List String), U.Nodup → ∀ (k : Nat) (n : String),
    U.get? k = some n → idxOf n U = k
  | [], _, k, n, h => by simp at h
  | a :: t, _, 0, n, h => by
    have ha : a = n := by simpa using h
    simp [idxOf, ha.symm]
  | a :: t, hnd, k + 1, n, h => by
    have ht : t.get? k = some n := by simpa using h
    have hmem : n ∈ t := List.get?_mem ht
    have hna : n ≠ a := by
      rintro rfl
      exact (List.nodup_cons.1 hnd).1 hmem
    simp [idxOf, hna, idxOf_get? t (List.nodup_cons.1 hnd).2 k n ht]

lemma regPool_get?_locAt : ∀ k : Nat, k < 4 → regPool.get? k = some (locAt k)
  | 0, _ => rfl
  | 1, _ => rfl
  | 2, _ => rfl
  | 3, _ => rfl
  | n + 4, h => absurd h (by omega)

/-- Running a request sequence from a fresh allocator: every request returns
the location indexed by that name's first-occurrence rank, and the final state
is the canonical state over the distinct names. -/
lemma processRequests_init (reqs : List String) :
    processRequests reqs RegisterAllocator.init =
      (reqs.map (fun n => locAt (idxOf n (dedupFirst reqs))),
       mkState (dedupFirst reqs)) := by
  have hini : RegisterAllocator.init = mkState ([] : List String) := rfl
  rw [hini]
  simpa [dedupFirst] using processRequests_master reqs []

/-! ### Claim C5: allocator determinism and hand-out order -/

/-- C5 (confirmed).  For every sequence of location requests on a freshly
reset allocator: (i) requests with the same name always return the same
location as the first such request (locations are never changed or freed by
the locate operation); (ii) the k-th distinct name (k < 4) is mapped to the
k-th pool register, in first-seen order; (iii) the fifth distinct name is
mapped to the stack slot at byte offset 8. -/
theorem c5_allocator_determinism (reqs : List String) :
    (∀ i j : Nat, reqs.get? i = reqs.get? j →
      (processRequests reqs RegisterAllocator.init).1.get? i =
        (processRequests reqs RegisterAllocator.init).1.get? j) ∧
    (∀ (k : Nat) (n : String), k < 4 → (dedupFirst reqs).get? k = some n →
      dictGet (processRequests reqs RegisterAllocator.init).2.locations n =
        regPool.get? k) ∧
    (∀ n : String, (dedupFirst reqs).get? 4 = some n →
      dictGet (processRequests reqs RegisterAllocator.init).2.locations n =
        some "[rbp-8]") := by
  refine ⟨?_, ?_, ?_⟩
  · intro i j hij
    simp only [processRequests_init, List.get?_map, hij]
  · intro k n hk hkn
    have hmem : n ∈ dedupFirst reqs := List.get?_mem hkn
    have hidx : idxOf n (dedupFirst reqs) = k :=
      idxOf_get? _ (dedupFirst_nodup reqs) k n hkn
    rw [processRequests_init]
    show dictGet (mkState (dedupFirst reqs)).locations n = regPool.get? k
    simp only [mkState]
    rw [mkLocs_dictGet, if_pos hmem, Nat.zero_add, hidx]
    exact (regPool_get?_locAt k hk).symm
  · intro n h4n
    have hmem : n ∈ dedupFirst reqs := List.get?_mem h4n
    have hidx : idxOf n (dedupFirst reqs) = 4 :=
      idxOf_get? _ (dedupFirst_nodup reqs) 4 n h4n
    rw [processRequests_init]
    show dictGet (mkState (dedupFirst reqs)).locations n = some "[rbp-8]"
    simp only [mkState]
    rw [mkLocs_dictGet, if_pos hmem, Nat.zero_add, hidx]
    decide

/-- Witness for C5 at the request sequence a, b, a, c, d, e: the repeated
request for "a" returns the same location, "a" holds the first pool register,
and the fifth distinct name "e" holds stack offset 8. -/
theorem c5_allocator_determinism_witness :
    ((processRequests ["a", "b", "a", "c", "d", "e"]
        RegisterAllocator.init).1.get? 0 =
      (processRequests ["a", "b", "a", "c", "d", "e"]
        RegisterAllocator.init).1.get? 2) ∧
    dictGet (processRequests ["a", "b", "a", "c", "d", "e"]
        RegisterAllocator.init).2.locations "a" = regPool.get? 0 ∧
    dictGet (processRequests ["a", "b", "a", "c", "d", "e"]
        RegisterAllocator.init).2.locations "e" = some "[rbp-8]" :=
  ⟨(c5_allocator_determinism _).1 0 2 rfl,
   (c5_allocator_determinism _).2.1 0 "a" (by decide) (by decide),
   (c5_allocator_determinism _).2.2 "e" (by decide)⟩

/-! ### Claim C6: dead-code elimination is not idempotent -/

lemma dce_foldr_sublist (used : List String) : ∀ ir : List Instruction,
    List.Sublist (List.foldr dceStep (used, []) ir).2 ir
  | [] => by simp
  | x :: t => by
    have ih := dce_foldr_sublist used t
    show List.Sublist (dceStep x (List.foldr dceStep (used, []) t)).2 (x :: t)
    generalize List.foldr dceStep (used, []) t = r at ih ⊢
    obtain ⟨u, acc⟩ := r
    unfold dceStep
    split
    · exact List.Sublist.cons x ih
    · exact ih.cons₂ x

/-- C6 counterexample: on `[assign a b, assign c a]` one application of
dead-code elimination keeps `assign a b` (the initial used-set still contains
"a", an operand of the dropped `assign c a`), while a second application
removes it — so applying the pass twice differs from applying it once. -/
theorem c6_counterexample :
    dead_code_elimination (dead_code_elimination
      [⟨"assign", some "a", some "b", none, none⟩,
       ⟨"assign", some "c", some "a", none, none⟩]) ≠
      dead_code_elimination
        [⟨"assign", some "a", some "b", none, none⟩,
         ⟨"assign", some "c", some "a", none, none⟩] := by decide

/-- C6 amended: dead-code elimination is not idempotent; a second application
yields a sublist of the first application's output (the pass only ever removes
instructions, so re-running it can drop assignments whose only uses were
themselves dropped, as in the counterexample, but can never add or reorder). -/
theorem c6_amended (l : List Instruction) :
    List.Sublist (dead_code_elimination (dead_code_elimination l))
      (dead_code_elimination l) := by
  unfold dead_code_elimination
  exact dce_foldr_sublist _ _

/-! ### Claim C1: Scenario A and constant folding -/

/-- The AST of Scenario A, `func main()\x7bint a=2; int b=3; print(a+b);\x7d`,
as the front end parses it. -/
def astA : Node := .Program [.FuncDecl "func" "main" [] (.Block [
  .VarDecl "int" "a" (some (.Literal 2)),
  .VarDecl "int" "b" (some (.Literal 3)),
  .PrintStmt (.BinOp "+" (.VarRef "a") (.VarRef "b"))])]

/-- The builder's TAC for Scenario A. -/
def tacA : List Instruction := [
  ⟨"label", none, none, none, some "main"⟩,
  ⟨"assign", some "a", some "2", none, none⟩,
  ⟨"assign", some "b", some "3", none, none⟩,
  ⟨"binop", some "t0", some "a", some "+ b", none⟩,
  ⟨"print", none, some "t0", none, none⟩,
  ⟨"ret", none, none, none, none⟩]

/-- The pipeline's output on Scenario A's TAC. -/
def optA : List Instruction := [
  ⟨"label", none, none, none, some "main"⟩,
  ⟨"assign", some "a", some "2", none, none⟩,
  ⟨"binop", some "t0", some "a", some "+ b", none⟩,
  ⟨"print", none, some "t0", none, none⟩,
  ⟨"ret", none, none, none, none⟩]

/-- C1 counterexample.  For Scenario A the five-pass pipeline does NOT replace
the binary add with an assignment of the literal 5: the optimized TAC `optA`
still contains the original binary instruction (whose packed field "+ b"
hides a non-literal operand) feeding the print, and contains no assignment
whose source is "5".  (It even drops `assign b 3`, whose only use is hidden
inside the packed field.) -/
theorem c1_counterexample :
    irGenerate astA = .ok tacA ∧
    (irGenerate astA).bind optimize = .ok optA ∧
    optA.contains ⟨"binop", some "t0", some "a", some "+ b", none⟩ = true ∧
    optA.contains ⟨"print", none, some "t0", none, none⟩ = true ∧
    optA.all (fun i => !(i.op == "assign" && i.arg1 == some "5")) = true := by
  exact ⟨by decide, by decide, by decide, by decide, by decide⟩

/-- C1 amended.  (a) The builder's unoptimized TAC for Scenario A contains
exactly one binary instruction, an add whose destination feeds the print —
that part of the claim holds.  (b) The pipeline leaves that binary add in
place (the builder packs the operator and right operand as "+ b", with a
space, so the extracted right text " b" is never a digit string; the left
operand is a variable anyway) and drops the assignment to `b`.  (c) Constant
folding does replace a binary instruction and substitute the tracked constant
into later non-binary uses when the packed field has the no-space shape the
pass expects and both sides are digit strings, e.g. `t0 = 2 "+3"; print t0`
becomes `t0 = 5; print 5`. -/
theorem c1_amended :
    (irGenerate astA = .ok tacA ∧
     (tacA.filter (fun i => i.op == "binop")).length = 1 ∧
     tacA.contains ⟨"binop", some "t0", some "a", some "+ b", none⟩ = true ∧
     tacA.contains ⟨"print", none, some "t0", none, none⟩ = true) ∧
    (irGenerate astA).bind optimize = .ok optA ∧
    constant_folding
      [⟨"binop", some "t0", some "2", some "+3", none⟩,
       ⟨"print", none, some "t0", none, none⟩] = .ok
      [⟨"assign", some "t0", some "5", none, none⟩,
       ⟨"print", none, some "5", none, none⟩] := by
  exact ⟨⟨by decide, by decide, by decide, by decide⟩, by decide, by decide⟩

/-! ### Claim C2: strength reduction and Scenario C -/

/-- The AST of Scenario C, `func main()\x7bint x=4*2;\x7d`. -/
def astC : Node := .Program [.FuncDecl "func" "main" [] (.Block [
  .VarDecl "int" "x" (some (.BinOp "*" (.Literal 4) (.Literal 2)))])]

/-- The pipeline's output on Scenario C's TAC. -/
def optC : List Instruction := [
  ⟨"label", none, none, none, some "main"⟩,
  ⟨"binop", some "t0", some "4", some "* 2", none⟩,
  ⟨"ret", none, none, none, none⟩]

/-- C2 counterexample.  On the builder's TAC for Scenario C the pipeline
leaves the multiply-by-2 as a binary instruction with packed field "* 2": the
optimized TAC `optC` contains no unary (shift) instruction at all, because
strength reduction matches only the exact no-space text "*2". -/
theorem c2_counterexample :
    irGenerate astC = .ok
      [⟨"label", none, none, none, some "main"⟩,
       ⟨"binop", some "t0", some "4", some "* 2", none⟩,
       ⟨"assign", some "x", some "t0", none, none⟩,
       ⟨"ret", none, none, none, none⟩] ∧
    (irGenerate astC).bind optimize = .ok optC ∧
    optC.contains ⟨"binop", some "t0", some "4", some "* 2", none⟩ = true ∧
    optC.all (fun i => !(i.op == "unop")) = true := by
  exact ⟨by decide, by decide, by decide, by decide⟩

/-- C2 amended.  Strength reduction rewrites exactly those binary instructions
whose packed field is the literal text "*2" (no space) into the shift-left
unary, keeping the destination and left operand; the builder packs the field
as "* 2" (with a space), so on builder-produced TAC the rewrite never fires
and Scenario C's multiply survives optimization as a binary instruction. -/
theorem c2_amended :
    strength_reduction [⟨"binop", some "t0", some "4", some "*2", none⟩] =
      [⟨"unop", some "t0", some "shl1", some "4", none⟩] ∧
    (∀ (d a : Option String),
      strength_reduction [⟨"binop", d, a, some "*2", none⟩] =
        [⟨"unop", d, some "shl1", a, none⟩]) ∧
    strength_reduction
      [⟨"binop", some "t0", some "4", some "* 2", none⟩] =
      [⟨"binop", some "t0", some "4", some "* 2", none⟩] ∧
    (irGenerate astC).bind optimize = .ok optC := by
  refine ⟨by decide, ?_, by decide, by decide⟩
  intro d a
  simp [strength_reduction]

/-! ### Claim C3: loop-invariant motion and the label convention -/

/-- The AST of `func main()\x7bfor(i=0;i<3;i=i+1)\x7bx=5;\x7d\x7d`. -/
def astFor : Node := .Program [.FuncDecl "func" "main" [] (.Block [
  .ForStmt (some (.Assign "i" (.Literal 0)))
           (some (.BinOp "<" (.VarRef "i") (.Literal 3)))
           (some (.Assign "i" (.BinOp "+" (.VarRef "i") (.Literal 1))))
           (.Block [.Assign "x" (.Literal 5)])])]

/-- The builder's TAC for `astFor`: note the loop labels "for0" and "forend1"
(one shared counter, so the end label's number differs from the start's). -/
def tacFor : List Instruction := [
  ⟨"label", none, none, none, some "main"⟩,
  ⟨"assign", some "i", some "0", none, none⟩,
  ⟨"label", none, none, none, some "for0"⟩,
  ⟨"binop", some "t0", some "i", some "< 3", none⟩,
  ⟨"ifz", none, some "t0", none, some "forend1"⟩,
  ⟨"assign", some "x", some "5", none, none⟩,
  ⟨"binop", some "t1", some "i", some "+ 1", none⟩,
  ⟨"assign", some "i", some "t1", none, none⟩,
  ⟨"goto", none, none, none, some "for0"⟩,
  ⟨"label", none, none, none, some "forend1"⟩,
  ⟨"ret", none, none, none, none⟩]

/-- A hand-written loop whose end label does satisfy the pass's literal
concatenation convention ("for0" + "end" = "for0end"). -/
def tacLoopConv : List Instruction := [
  ⟨"label", none, none, none, some "for0"⟩,
  ⟨"assign", some "t1", some "5", none, none⟩,
  ⟨"binop", some "i", some "i", some "+ 1", none⟩,
  ⟨"goto", none, none, none, some "for0"⟩,
  ⟨"label", none, none, none, some "for0end"⟩,
  ⟨"ret", none, none, none, none⟩]

/-- C3 counterexample.  The builder emits for-loops with start label "forN"
and end label "forendM" (distinctly numbered), while the pass looks for the
end label "forN" + "end"; on the builder's TAC for a for-loop containing the
invariant instruction `assign x 5` the pass finds no end label and returns
the list unchanged — the invariant is NOT duplicated (it occurs exactly once),
contradicting the claim's "in particular" clause. -/
theorem c3_counterexample :
    irGenerate astFor = .ok tacFor ∧
    tacFor.all (fun i => !(i.op == "label" && i.label == some "for0end")) = true ∧
    loop_invariant_motion tacFor = tacFor ∧
    (tacFor.filter
      (fun i => i == ⟨"assign", some "x", some "5", none, none⟩)).length = 1 := by
  exact ⟨by decide, by decide, by decide, by decide⟩

/-- C3 amended.  When a loop does satisfy the literal concatenation convention
(start label "for0", end label "for0end"), every body instruction of kind
binop/unop/assign with a destination and with no operand defined in the body
is duplicated immediately before the (unmodified) body — and the end-label
instruction itself is dropped from the output, because the scan resumes just
past it.  Builder-emitted for-loops never satisfy the convention (end labels
are "forendM", not "forNend"), so they are returned unchanged and nothing is
duplicated. -/
theorem c3_amended :
    loop_invariant_motion tacLoopConv = [
      ⟨"label", none, none, none, some "for0"⟩,
      ⟨"assign", some "t1", some "5", none, none⟩,
      ⟨"assign", some "t1", some "5", none, none⟩,
      ⟨"binop", some "i", some "i", some "+ 1", none⟩,
      ⟨"goto", none, none, none, some "for0"⟩,
      ⟨"ret", none, none, none, none⟩] ∧
    limInvariants ((tacLoopConv.drop 1).take 3) =
      [⟨"assign", some "t1", some "5", none, none⟩] ∧
    irGenerate astFor = .ok tacFor ∧
    loop_invariant_motion tacFor = tacFor := by
  exact ⟨by decide, by decide, by decide, by decide⟩

/-! ### Claim C7: division by a folded zero -/

/-- C7 counterexample.  A builder-shaped division by literal zero (packed
field "/ 0", with a space) is passed through constant folding unchanged and
raises no error — the extracted right text " 0" is not a digit string, so the
fold (and with it the zero check) never happens. -/
theorem c7_counterexample :
    constant_folding [⟨"binop", some "t0", some "8", some "/ 0", none⟩] =
      .ok [⟨"binop", some "t0", some "8", some "/ 0", none⟩] := by decide

/-- C7 amended.  Constant folding is fatal on a division or modulo by literal
zero only when the packed field has the no-space shape "/0" or "%0" the pass
expects (then, for any digit-string left operand, it raises
ZeroDivisionError); builder-emitted instructions pack "op value" with a space,
and any such division by zero is passed through unchanged, for every left
operand. -/
theorem c7_amended :
    (∀ left : String,
      constant_folding [⟨"binop", some "t0", some left, some "/ 0", none⟩] =
        .ok [⟨"binop", some "t0", some left, some "/ 0", none⟩]) ∧
    (∀ left : String, pyIsDigit left = true →
      constant_folding [⟨"binop", some "t0", some left, some "/0", none⟩] =
        .error "ZeroDivisionError") ∧
    (∀ left : String, pyIsDigit left = true →
      constant_folding [⟨"binop", some "t0", some left, some "%0", none⟩] =
        .error "ZeroDivisionError") := by
  refine ⟨?_, ?_, ?_⟩
  · intro left
    have hf : cfFindSym "/ 0" = some '/' := by decide
    simp +decide [constant_folding, cfGo, cfInstr, pyEvalBin, hf]
  · intro left h
    have hf : cfFindSym "/0" = some '/' := by decide
    simp +decide [constant_folding, cfGo, cfInstr, pyEvalBin, h, hf]
  · intro left h
    have hf : cfFindSym "%0" = some '%' := by decide
    simp +decide [constant_folding, cfGo, cfInstr, pyEvalBin, h, hf]

/-- Witness for C7 amended at the left operand "8". -/
theorem c7_amended_witness :
    constant_folding [⟨"binop", some "t0", some "8", some "/0", none⟩] =
      .error "ZeroDivisionError" ∧
    constant_folding [⟨"binop", some "t0", some "8", some "%0", none⟩] =
      .error "ZeroDivisionError" ∧
    constant_folding [⟨"binop", some "t0", some "9", some "/ 0", none⟩] =
      .ok [⟨"binop", some "t0", some "9", some "/ 0", none⟩] :=
  ⟨c7_amended.2.1 "8" (by decide), c7_amended.2.2 "8" (by decide),
   c7_amended.1 "9"⟩

/-! ### Claim C4: control-flow shape of the two emissions -/

/-- The labels that open blocks in an emitted text: the lines ending in a
colon, with the colon stripped. -/
def blockLabels (lines : List String) : List String :=
  lines.filterMap (fun s =>
    if s.data.getLast? == some ':' then some (String.mk s.data.dropLast) else none)

/-- An optimized TAC list with one conditional branch: entry label, an
assignment, a zero-test to "else0", the "else0" label, return. -/
def tacBr : List Instruction := [
  ⟨"label", none, none, none, some "main"⟩,
  ⟨"assign", some "a", some "0", none, none⟩,
  ⟨"ifz", none, some "a", none, some "else0"⟩,
  ⟨"label", none, none, none, some "else0"⟩,
  ⟨"ret", none, none, none, none⟩]

/-- C4 counterexample.  On `tacBr` both emissions succeed, but the portable
output opens blocks "entry" and "next0" that the native output does not have:
the sets of labels opening blocks differ, so the two emissions are not
structurally equivalent. -/
theorem c4_counterexample :
    (ll_generate tacBr).map
      (fun ls => ((blockLabels ls).contains "next0",
                  (blockLabels ls).contains "entry")) = .ok (true, true) ∧
    (cg_generate tacBr).map
      (fun ls => ((blockLabels ls).contains "next0",
                  (blockLabels ls).contains "entry")) = .ok (false, false) := by
  exact ⟨by decide, by decide⟩

/-- C4 amended.  On `tacBr` the two emissions agree on the TAC-derived part of
the control flow — each opens a block for the non-"main" TAC label "else0",
and each branches to the ifz's TAC target "else0" — but the portable emitter
additionally opens an "entry" block and a fresh "next0" fallthrough block at
the branch-if-zero (which it also targets), so the full block sets are
["main", "else0"] natively versus ["entry", "next0", "else0"] portably, and
the emissions are structurally equivalent only up to these synthetic blocks. -/
theorem c4_amended :
    (cg_generate tacBr).map blockLabels = .ok ["main", "else0"] ∧
    (ll_generate tacBr).map blockLabels = .ok ["entry", "next0", "else0"] ∧
    (cg_generate tacBr).map (fun ls => ls.contains "    je else0") = .ok true ∧
    (ll_generate tacBr).map
      (fun ls => ls.contains "  br i1 %check, label %else0, label %next0") =
      .ok true := by
  exact ⟨by decide, by decide, by decide, by decide⟩

/-! ### Claim C8: behaviour of the emitters on unsupported instructions -/

/-- A TAC list starting with an instruction of unknown kind, followed by a
print. -/
def tacUnk : List Instruction := [
  ⟨"frobnicate", some "t0", none, none, none⟩,
  ⟨"print", none, some "x", none, none⟩]

/-- C8 counterexample.  The portable emitter emits NO placeholder for the
unsupported kind: its output on `tacUnk` is character-for-character the output
on the list without that instruction (the instruction leaves no trace at all,
and in particular the output contains no comment character), contradicting
"emits a visible placeholder comment". -/
theorem c8_counterexample :
    ll_generate tacUnk = ll_generate [⟨"print", none, some "x", none, none⟩] ∧
    (ll_generate tacUnk).map
      (fun ls => ls.any (fun l => l.data.contains ';')) = .ok false := by
  exact ⟨by decide, by decide⟩

/-- C8 amended.  The native emitter does emit a visible placeholder comment
for an unrecognized instruction kind (Python repr of the record) and for an
unrecognized binary operator, and continues with the remaining instructions
(the print is still lowered after the placeholder); the portable emitter
instead skips an instruction of unrecognized kind silently — emitting nothing
for it — and continues with the remaining instructions. -/
theorem c8_amended :
    (cg_generate tacUnk).map (fun ls =>
      (ls.contains ("    ; unhandled Instruction(op=" ++ pyQuote ++ "frobnicate" ++
         pyQuote ++ ", dest=" ++ pyQuote ++ "t0" ++ pyQuote ++
         ", arg1=None, arg2=None, label=None)"),
       ls.contains "    call printf")) = .ok (true, true) ∧
    (cg_generate [⟨"binop", some "t0", some "1", some "@ 3", none⟩,
        ⟨"ret", none, none, none, none⟩]).map
      (fun ls => (ls.contains "    ; unhandled binop @",
                  ls.contains "    xor rax, rax")) = .ok (true, true) ∧
    ll_generate tacUnk = ll_generate [⟨"print", none, some "x", none, none⟩] := by
  exact ⟨by decide, by decide, by decide⟩

/-! ### Claim C9: the prologue's stack reservation -/

/-- Five assignments to five distinct names: the fifth name spills to the
stack slot at offset 8, so the allocator's aligned frame size ends at 16
bytes. -/
def tacFive : List Instruction := [
  ⟨"assign", some "a", some "1", none, none⟩,
  ⟨"assign", some "b", some "1", none, none⟩,
  ⟨"assign", some "c", some "1", none, none⟩,
  ⟨"assign", some "d", some "1", none, none⟩,
  ⟨"assign", some "e", some "1", none, none⟩]

/-- C9: the code's behaviour at the failing input.  `generate` samples
`stack_size()` before emitting any instruction — at that moment the freshly
reset allocator reports 0 — so the emitted prologue reserves exactly 32 bytes
(the fixed call-scratch amount alone; the `aligned_sz > 0` branch is dead),
even though the emission then assigns the stack slot `[rbp-8]` to the fifth
name and ends with a 16-byte aligned frame size, which the claim requires to
be covered by a reservation of at least 16 + 32 = 48 bytes. -/
theorem c9_prologue_reservation :
    (cg_generateSt tacFive).map (fun st => st.asm.get? 10) =
      .ok (some "    sub rsp, 32") ∧
    (cg_generateSt tacFive).map
      (fun st => st.asm.any (fun l => strStarts "    sub rsp, 48" l)) = .ok false ∧
    (cg_generateSt tacFive).map
      (fun st => dictGet st.regalloc.locations (some "e")) =
      .ok (some "[rbp-8]") ∧
    (cg_generateSt tacFive).map
      (fun st => RegisterAllocator.stack_size st.regalloc) = .ok 16 := by
  exact ⟨by decide, by decide, by decide, by decide⟩

/-! ### Claim C10: the register pool doubles as the emitter's scratch set -/

/-- Operand resolution never touches the output text. -/
lemma cg_operand_asm (x : Option String) (st : CGState) :
    (cg_operand x st).2.asm = st.asm := by
  cases x with
  | none => rfl
  | some s =>
    by_cases h : pyIsDigit s = true <;> simp [cg_operand, h]

/-- A state in which x, y, z are all spilled to memory. -/
def cmpState : CGState :=
  ⟨⟨[], [(some "y", "[rbp-8]"), (some "z", "[rbp-16]"), (some "x", "[rbp-24]")], 24⟩, []⟩

/-- A state in which p and q are both spilled to memory. -/
def memState : CGState :=
  ⟨⟨[], [(some "p", "[rbp-8]"), (some "q", "[rbp-16]")], 16⟩, []⟩

/-- A TAC program on which the emitted native code overwrites the register of
a live name: `a` is located in `rax` by its definition (line 11 of the
output); lowering the unrelated `t0 = b + 2` stages through `rax` (line 12
overwrites it); the later `print a` then reads `rax` (line 16). -/
def tacClobber : List Instruction := [
  ⟨"assign", some "a", some "1", none, none⟩,
  ⟨"binop", some "t0", some "b", some "+ 2", none⟩,
  ⟨"print", none, some "a", none, none⟩]

/-- C10 (implicit claim, confirmed).  (1) The fresh pool is exactly
rax, rbx, rcx, rdx; (2) on every input the first distinct name is located in
`rax`; (3) every arithmetic binary lowering stages through `rax`
(`mov rax, lhs` / op / `mov dst, rax`); (4) every unary lowering stages
through `rax`; (5) every print lowering passes its arguments in `rcx` and
`rdx`; (6) a comparison of two memory operands stages the right side through
`rbx`; (7) a memory-to-memory move stages through `rax`; and (8) on
`tacClobber` the emitted code overwrites `rax` — the register assigned to the
live name `a` — between `a`'s definition and its later use in the print. -/
theorem c10_registers :
    (RegisterAllocator.init : RegisterAllocator String).free_regs =
      ["rax", "rbx", "rcx", "rdx"] ∧
    (∀ (reqs : List String) (n : String), (dedupFirst reqs).get? 0 = some n →
      dictGet (processRequests reqs RegisterAllocator.init).2.locations n =
        some "rax") ∧
    (∀ (st : CGState) (dest a1 : Option String) (a2 o r : String),
      pySplitOnce ' ' a2 = (o, some r) → (o = "+" ∨ o = "-" ∨ o = "*") →
      ∃ dst lhs rhs ra, cg_handle_binop ⟨"binop", dest, a1, some a2, none⟩ st =
        .ok { regalloc := ra, asm := st.asm ++
          ["    mov rax, " ++ lhs,
           "    " ++ binop_map o ++ " rax, " ++ rhs,
           "    mov " ++ dst ++ ", rax"] }) ∧
    (∀ (st : CGState) (dest a1 a2 : Option String),
      ∃ dst val ra, cg_handle_unop ⟨"unop", dest, a1, a2, none⟩ st =
        { regalloc := ra, asm := st.asm ++
          ["    mov rax, " ++ val,
           (if a2 == some "-" then "    neg rax" else "    not rax"),
           "    mov " ++ dst ++ ", rax"] }) ∧
    (∀ (st : CGState) (a1 : Option String),
      ∃ val ra, cg_emit ⟨"print", none, a1, none, none⟩ st =
        .ok { regalloc := ra, asm := st.asm ++
          ["    mov rcx, fmt_print", "    mov rdx, " ++ val,
           "    sub rsp, 32", "    call printf", "    add rsp, 32"] }) ∧
    cg_handle_binop ⟨"binop", some "x", some "y", some "< z", none⟩ cmpState =
      .ok { regalloc := cmpState.regalloc, asm :=
        ["    mov rbx, qword [rbp-16]", "    cmp qword [rbp-8], rbx",
         "    setl al", "    movzx rax, al", "    mov [rbp-24], rax"] } ∧
    cg_emit ⟨"assign", some "p", some "q", none, none⟩ memState =
      .ok { regalloc := memState.regalloc, asm :=
        ["    mov rax, qword [rbp-16]", "    mov [rbp-8], rax"] } ∧
    (cg_generateSt tacClobber).map
      (fun st => dictGet st.regalloc.locations (some "a")) = .ok (some "rax") ∧
    (cg_generateSt tacClobber).map
      (fun st => (st.asm.get? 11, st.asm.get? 12, st.asm.get? 16)) =
      .ok (some "    mov rax, 1", some "    mov rax, rcx",
           some "    mov rdx, rax") := by
  refine ⟨rfl, ?_, ?_, ?_, ?_, by decide, by decide, by decide, by decide⟩
  · intro reqs n h0
    have hmem : n ∈ dedupFirst reqs := List.get?_mem h0
    have hidx : idxOf n (dedupFirst reqs) = 0 :=
      idxOf_get? _ (dedupFirst_nodup reqs) 0 n h0
    rw [processRequests_init]
    show dictGet (mkState (dedupFirst reqs)).locations n = some "rax"
    simp only [mkState]
    rw [mkLocs_dictGet, if_pos hmem, Nat.zero_add, hidx]
    decide
  · intro st dest a1 a2 o r hsplit ho
    unfold cg_handle_binop
    dsimp only
    rw [hsplit]
    rcases ho with rfl | rfl | rfl <;>
      ( simp +decide [cg_operand_asm]
        exact ⟨_, rfl⟩ )
  · intro st dest a1 a2
    unfold cg_handle_unop
    simp [cg_operand_asm]
    exact ⟨_, rfl⟩
  · intro st a1
    unfold cg_emit
    simp +decide [cg_operand_asm]

/-- Witness for C10 at concrete inputs: requests ["a"] put "a" in rax; the
packed field "+ 2" splits to the operator "+" and the binop/unop/print
lowerings on a fresh state produce the staged lines. -/
theorem c10_registers_witness :
    dictGet (processRequests ["a"] RegisterAllocator.init).2.locations "a" =
      some "rax" ∧
    (∃ dst lhs rhs ra,
      cg_handle_binop ⟨"binop", some "t0", some "b", some "+ 2", none⟩
          ⟨RegisterAllocator.init, []⟩ =
        .ok { regalloc := ra, asm := ([] : List String) ++
          ["    mov rax, " ++ lhs,
           "    " ++ binop_map "+" ++ " rax, " ++ rhs,
           "    mov " ++ dst ++ ", rax"] }) ∧
    (∃ dst val ra,
      cg_handle_unop ⟨"unop", some "t0", some "-", some "v", none⟩
          ⟨RegisterAllocator.init, []⟩ =
        { regalloc := ra, asm := ([] : List String) ++
          ["    mov rax, " ++ val,
           (if (some "v" : Option String) == some "-" then "    neg rax"
            else "    not rax"),
           "    mov " ++ dst ++ ", rax"] }) ∧
    (∃ val ra,
      cg_emit ⟨"print", none, some "v", none, none⟩ ⟨RegisterAllocator.init, []⟩ =
        .ok { regalloc := ra, asm := ([] : List String) ++
          ["    mov rcx, fmt_print", "    mov rdx, " ++ val,
           "    sub rsp, 32", "    call printf", "    add rsp, 32"] }) :=
  ⟨c10_registers.2.1 ["a"] "a" (by decide),
   c10_registers.2.2.1 ⟨RegisterAllocator.init, []⟩ (some "t0") (some "b")
     "+ 2" "+" "2" (by decide) (Or.inl rfl),
   c10_registers.2.2.2.1 ⟨RegisterAllocator.init, []⟩ (some "t0") (some "-")
     (some "v"),
   c10_registers.2.2.2.2.1 ⟨RegisterAllocator.init, []⟩ (some "v")⟩

end Compiler
